import Mathlib

/-!
Verification of the orchestrator core of `swe-ai-orchestrator` against its
natural-language specification.

The development shallowly embeds the Python sources:
  * `src/orchestrator/graph.py` (the `supervisor` routing node),
  * `src/orchestrator/llm.py` (`_is_retryable`, `invoke_with_retry`),
  * `src/orchestrator/agents/coding.py` and `agents/testing.py`
    (the tool-calling loops and `_detect_passing`),
  * `src/orchestrator/tools/file_tools.py`
    (`_resolve_path`, `write_file`, `read_file`, `list_files`).

Python strings are Lean `String`s; Python dictionaries of strings are
association lists; the reasoning backend (an external collaborator) is an
oracle: the supervisor receives the backend response as a value, and the
tool-calling loops receive the first response plus the finite script of
follow-up responses the backend would produce.  All definitions are
computable so that concrete runs evaluate by `decide` / `rfl`.
-/

/-! ### Python string primitives

The repository only ever compares ASCII text (route names, retry patterns,
failure keywords), so `str.lower` / `str.upper` are modelled on ASCII. -/

deriving instance DecidableEq for Except

/-- ASCII lower-casing of one character (`str.lower` restricted to ASCII). -/
def asciiLower (c : Char) : Char :=
  if 65 ≤ c.toNat ∧ c.toNat ≤ 90 then Char.ofNat (c.toNat + 32) else c

/-- ASCII upper-casing of one character (`str.upper` restricted to ASCII). -/
def asciiUpper (c : Char) : Char :=
  if 97 ≤ c.toNat ∧ c.toNat ≤ 122 then Char.ofNat (c.toNat - 32) else c

/-- Python `s.lower()` on ASCII text. -/
def pyLower (s : String) : String := ⟨s.data.map asciiLower⟩

/-- Python `s.upper()` on ASCII text. -/
def pyUpper (s : String) : String := ⟨s.data.map asciiUpper⟩

/-- Substring test on character lists: `substrB n h = true` iff `n` occurs
contiguously in `h`. -/
def substrB (needle : List Char) : List Char → Bool
  | [] => needle.isEmpty
  | c :: t => needle.isPrefixOf (c :: t) || substrB needle t

/-- Python's `needle in hay` on strings. -/
def pyIn (needle hay : String) : Bool := substrB needle.data hay.data

/-- Python's `sep.join(l)`. -/
def pyJoin (sep : String) : List String → String
  | [] => ""
  | [x] => x
  | x :: y :: t => x ++ sep ++ pyJoin sep (y :: t)

/-- Python's `s.split(" ")[0]`: the characters before the first space. -/
def firstWord (s : String) : String := ⟨s.data.takeWhile (fun c => c ≠ ' ')⟩

/-- Python `dict.get(k, default)` on an association list. -/
def dictGet (d : List (String × String)) (k default : String) : String :=
  ((d.find? (fun p => p.1 == k)).map (fun p => p.2)).getD default

/-- Python `d[k] = v` on an insertion-ordered association list: overwrite in
place if the key exists, else append. -/
def dictSet (d : List (String × String)) (k v : String) : List (String × String) :=
  if d.any (fun p => p.1 == k) then
    d.map (fun p => if p.1 == k then (k, v) else p)
  else d ++ [(k, v)]

example : pyLower "FINISH" = "finish" := by decide
example : pyIn "oding" "I pick CODING next" = false := by decide
example : pyIn "codin" (pyLower "I pick CODING next") = true := by decide
example : pyJoin ", " ["a", "b", "c"] = "a, b, c" := by decide
example : firstWord "testing (tests not passing)" = "testing" := by decide

/-! ### Paths and the file tools (`src/orchestrator/tools/file_tools.py`)

POSIX absolute paths are lists of components (the parts after the leading
`/`); `renderPath` is Python's `str(path)` for such a path.  Symlinks are not
modelled, so `Path.resolve()` is `..`/`.` elimination after making the path
absolute against the working directory `cwd`.  The filesystem is a pair of
existing-directory paths and (file path, content) pairs; the environment
lookup `_get_output_dir()` is the parameter `od`. -/

/-- Split a string on `/` into components (Python `Path` parts, keeping empty
components, which `normalizeComps` later drops as `Path` itself would). -/
def splitSlashAux (acc : List Char) : List Char → List String
  | [] => [⟨acc.reverse⟩]
  | c :: t =>
    if c = '/' then ⟨acc.reverse⟩ :: splitSlashAux [] t
    else splitSlashAux (c :: acc) t

/-- All `/`-separated components of a path string. -/
def splitSlash (s : String) : List String := splitSlashAux [] s.data

/-- `True` iff the path string is absolute (starts with `/`). -/
def isAbsStr (s : String) : Bool :=
  match s.data with
  | '/' :: _ => true
  | _ => false

/-- Eliminate `.`, empty and `..` components, as `Path.resolve()` does on a
symlink-free absolute path (`..` at the root stays at the root). -/
def normalizeComps (comps : List String) : List String :=
  comps.foldl
    (fun acc c =>
      if c = "." ∨ c = "" then acc
      else if c = ".." then acc.dropLast
      else acc ++ [c])
    []

/-- `str(p)` for an absolute path given by its components. -/
def renderPath (comps : List String) : String :=
  "/" ++ pyJoin "/" comps

/-- `Path(s).resolve()` against the working directory `cwd`. -/
def absResolve (cwd : List String) (s : String) : List String :=
  if isAbsStr s then normalizeComps (splitSlash s)
  else normalizeComps (cwd ++ splitSlash s)

/-- `(Path(od) / filename).resolve()`: an absolute `filename` replaces the
base, as with `pathlib`'s `/` operator. -/
def joinResolve (cwd : List String) (od filename : String) : List String :=
  if isAbsStr filename then normalizeComps (splitSlash filename)
  else normalizeComps (cwd ++ splitSlash od ++ splitSlash filename)

/-- `_resolve_path(filename)` from `file_tools.py`: resolve the filename
against the output directory and raise `ValueError` (modelled as `.error`)
unless `str(resolved).startswith(str(base.resolve()))`. -/
def resolve_path (cwd : List String) (od filename : String) :
    Except String (List String) :=
  let base := absResolve cwd od
  let resolved := joinResolve cwd od filename
  if (renderPath base).data.isPrefixOf (renderPath resolved).data then
    .ok resolved
  else
    .error ("Path traversal detected: " ++ filename)

/-- The filesystem visible to the file tools: existing directories and
`(path, content)` files, all as resolved absolute paths. -/
structure FileSys where
  dirs : List (List String)
  files : List (List String × String)
deriving DecidableEq

/-- `Path.exists()` on the model. -/
def fsExists (fs : FileSys) (p : List String) : Bool :=
  fs.dirs.contains p || fs.files.any (fun f => f.1 == p)

/-- `path.parent.mkdir(parents=True, exist_ok=True)` followed by
`path.write_text(content)`. -/
def fsWrite (fs : FileSys) (p : List String) (content : String) : FileSys :=
  { dirs := if fs.dirs.contains p.dropLast then fs.dirs else fs.dirs ++ [p.dropLast]
    files :=
      if fs.files.any (fun f => f.1 == p) then
        fs.files.map (fun f => if f.1 == p then (p, content) else f)
      else fs.files ++ [(p, content)] }

/-- `write_file(filename, content)` from `file_tools.py`. -/
def write_file (cwd : List String) (od : String) (filename content : String)
    (fs : FileSys) : Except String (String × FileSys) :=
  match resolve_path cwd od filename with
  | .error e => .error e
  | .ok p =>
      .ok ("Written " ++ toString content.length ++ " bytes to " ++ renderPath p,
           fsWrite fs p content)

/-- `read_file(filename)` from `file_tools.py`. -/
def read_file (cwd : List String) (od : String) (filename : String)
    (fs : FileSys) : Except String (String × FileSys) :=
  match resolve_path cwd od filename with
  | .error e => .error e
  | .ok p =>
      if fsExists fs p then
        .ok ((((fs.files.find? (fun f => f.1 == p)).map (fun f => f.2)).getD ""), fs)
      else
        .ok ("File not found: " ++ filename, fs)

/-- Code-point comparison of characters (how Python compares strings). -/
def charLt (a b : Char) : Bool := decide (a.toNat < b.toNat)

/-- Lexicographic code-point `<` on character lists (Python string `<`). -/
def strLtB : List Char → List Char → Bool
  | [], [] => false
  | [], _ :: _ => true
  | _ :: _, [] => false
  | a :: as, b :: bs => charLt a b || (a == b && strLtB as bs)

/-- `a <= b` on Python strings (total order, so `not (b < a)`). -/
def strLeB (a b : String) : Bool := !strLtB b.data a.data

/-- Insert into a list sorted by `strLeB`, before strictly larger
elements. -/
def orderedInsertStr (a : String) : List String → List String
  | [] => [a]
  | b :: l => if strLeB a b then a :: b :: l else b :: orderedInsertStr a l

/-- Python's `sorted` on a list of strings (insertion sort; since ties are
identical strings, every stable-or-not sort by `strLeB` yields this list). -/
def pySorted : List String → List String
  | [] => []
  | b :: l => orderedInsertStr b (pySorted l)

/-- The files `base.rglob("*")` yields (filtered by `is_file()`): files whose
path extends `base` strictly. -/
def filesUnder (fs : FileSys) (base : List String) : List (List String) :=
  (fs.files.map (fun f => f.1)).filter
    (fun p => base.isPrefixOf p && p.length > base.length)

/-- The name `str(p.relative_to(outResolved))` yields in its non-raising
case, i.e. when `outResolved` is an ancestor of `p`; `relNames` below models
the raising case. -/
def relName (outResolved p : List String) : String :=
  pyJoin "/" (p.drop outResolved.length)

/-- `str(p.relative_to(outResolved))` over the generator's iteration order:
`relative_to` raises `ValueError` (modelled as `.error`, aborting at the
first offending path) whenever `outResolved` is not an ancestor of `p` —
reachable because `_resolve_path`'s string-prefix check admits sibling
directories of the output directory. -/
def relNames (outResolved : List String) : List (List String) → Except String (List String)
  | [] => .ok []
  | p :: rest =>
      if outResolved.isPrefixOf p then
        match relNames outResolved rest with
        | .error e => .error e
        | .ok ns => .ok (relName outResolved p :: ns)
      else
        .error ("'" ++ renderPath p ++ "' is not in the subtree of '"
          ++ renderPath outResolved ++ "'")

/-- `list_files(directory)` from `file_tools.py`: `"Directory not found: d"`
when the directory is absent, the sorted newline-joined relative names when
files exist, the sentinel `"(empty)"` otherwise; `p.relative_to(...)` inside
the `sorted(...)` generator raises (an uncaught `ValueError`, the `.error`
case of `relNames`) for a file outside the output root.  `sorted` is
embedded as a stable sort by the code-point order on strings, which is what
Python's `sorted` computes here. -/
def list_files (cwd : List String) (od : String) (directory : String)
    (fs : FileSys) : Except String (String × FileSys) :=
  match resolve_path cwd od directory with
  | .error e => .error e
  | .ok base =>
      if fsExists fs base then
        match relNames (absResolve cwd od) (filesUnder fs base) with
        | .error e => .error e
        | .ok ns =>
            let names := pySorted ns
            .ok (if names.isEmpty then "(empty)" else pyJoin "\n" names, fs)
      else
        .ok ("Directory not found: " ++ directory, fs)

example :
    resolve_path ["app"] "output" "sub/x.py" = .ok ["app", "output", "sub", "x.py"] := by
  decide
example :
    resolve_path ["app"] "output" "../../etc/passwd" =
      .error "Path traversal detected: ../../etc/passwd" := by
  decide
example :
    resolve_path ["app"] "output" "../output2/secret.txt" =
      .ok ["app", "output2", "secret.txt"] := by
  decide

example :
    list_files ["app"] "output" "." ⟨[["app", "output"]], [(["app", "output", "b.py"], "x"), (["app", "output", "a.py"], "y")]⟩ =
      .ok ("a.py\nb.py", ⟨[["app", "output"]], [(["app", "output", "b.py"], "x"), (["app", "output", "a.py"], "y")]⟩) := by
  decide

/-! ### The supervisor (`src/orchestrator/graph.py`)

`OrchestratorState` carries the fields of `state.py` that the supervisor
reads (`messages` is irrelevant to its decision and omitted from the record;
the announcement message the supervisor appends is the `message` field of
`SupervisorResult`).  The backend call `invoke_with_retry(model, messages)`
is an oracle: the supervisor receives the `AIMessage` it would return.  The
outcome of `json.loads(response.content)` plus the `.get` field accesses is
part of that oracle value: `parsed = none` models the caught
`json.JSONDecodeError` / `AttributeError`, and `parsed = some d` models a
successfully decoded JSON dict whose `"next"`/`"reason"` entries are
`d.next?` / `d.reason?` (a present non-string `"next"` behaves exactly like
an unknown route string, so `Option String` loses no behavior). -/

/-- The supervisor-relevant fields of `OrchestratorState` (`state.py`). -/
structure OrchestratorState where
  requirements : String
  system_design : String
  code_files : List (String × String)
  test_results : String
  tests_passing : Bool
  monitoring_config : String
  current_phase : String
  iteration_count : Nat

/-- `json.loads` outcome of a supervisor response: the `"next"` and
`"reason"` entries of the decoded dict, when present as strings. -/
structure ParsedDecision where
  next? : Option String
  reason? : Option String

/-- A backend response as the supervisor sees it. -/
structure LLMResponse where
  parsed : Option ParsedDecision
  content : String

/-- `AGENT_NODES` keys plus `"FINISH"` (`VALID_ROUTES` in `graph.py`). -/
def VALID_ROUTES : List String :=
  ["requirements", "system_design", "coding", "testing", "monitoring", "FINISH"]

/-- `bool(state.get("requirements"))`. -/
def has_requirements (s : OrchestratorState) : Bool := !s.requirements.isEmpty

/-- `bool(state.get("system_design"))`. -/
def has_design (s : OrchestratorState) : Bool := !s.system_design.isEmpty

/-- `bool(state.get("code_files"))`. -/
def has_code (s : OrchestratorState) : Bool := !s.code_files.isEmpty

/-- `bool(state.get("monitoring_config"))`. -/
def has_monitoring (s : OrchestratorState) : Bool := !s.monitoring_config.isEmpty

/-- The `all_done` conjunction of `graph.py` line 97: every milestone holds. -/
def all_done (s : OrchestratorState) : Bool :=
  has_requirements s && has_design s && has_code s && s.tests_passing
    && has_monitoring s

/-- The `missing` list built at `graph.py` lines 102-112. -/
def missingList (s : OrchestratorState) : List String :=
  (if !has_requirements s then ["requirements"] else [])
    ++ (if !has_design s then ["system_design"] else [])
    ++ (if !has_code s then ["coding"] else [])
    ++ (if !s.tests_passing then ["testing (tests not passing)"] else [])
    ++ (if !has_monitoring s then ["monitoring"] else [])

/-- `missing[0].split(" ")[0]` followed by the `testing -> coding` remap of
`graph.py` lines 114-116 (the source's conditional reads
`"coding" if has_code else "coding"`: both branches are `"coding"`). -/
def overrideRoute (s : OrchestratorState) : String :=
  let w := firstWord ((missingList s).headD "")
  if w = "testing" then "coding" else w

/-- The `try/except json.loads` block plus the substring-scan fallback
(`graph.py` lines 77-90), returning `(next_agent, reason)`.  The fallback
scans `VALID_ROUTES` in order, first case-insensitive substring match wins;
with no match it degrades to `("FINISH", diagnostic)`. -/
def parseStep (r : LLMResponse) : String × String :=
  match r.parsed with
  | some d => (d.next?.getD "FINISH", d.reason?.getD "")
  | none =>
      match VALID_ROUTES.find? (fun route => pyIn (pyLower route) (pyLower r.content)) with
      | some route => (route, r.content)
      | none => ("FINISH", "Could not parse routing decision; finishing.")

/-- The unknown-route guard (`graph.py` lines 92-94).  The source assigns
`next_agent = "FINISH"` before interpolating it into the reason, so the
reason is always the constant `"Unknown route 'FINISH'; finishing."`. -/
def validateRoute (p : String × String) : String × String :=
  if VALID_ROUTES.contains p.1 then p
  else ("FINISH", "Unknown route 'FINISH'; finishing.")

/-- The completion override (`graph.py` lines 96-117): a premature `FINISH`
below the iteration cap with unmet milestones is rerouted to
`overrideRoute`. -/
def overrideStep (cap : Nat) (s : OrchestratorState) (p : String × String) :
    String × String :=
  if p.1 = "FINISH" ∧ s.iteration_count < cap ∧ !all_done s then
    (overrideRoute s,
     "Cannot finish yet — incomplete phases: " ++ pyJoin ", " (missingList s)
       ++ ". Routing to " ++ overrideRoute s ++ ".")
  else p

/-- The iteration-cap guard (`graph.py` lines 119-121). -/
def capStep (cap : Nat) (s : OrchestratorState) (p : String × String) :
    String × String :=
  if cap ≤ s.iteration_count ∧ p.1 ≠ "FINISH" then
    ("FINISH", "Max iterations (" ++ toString cap ++ ") reached; forcing FINISH.")
  else p

/-- The value the `supervisor` node returns: the routing decision plus the
state update dict (`graph.py` lines 131-140). -/
structure SupervisorResult where
  next_agent : String
  reason : String
  message : String
  current_phase : String
  iteration_count : Nat

/-- `supervisor(state)` from `graph.py`, with the iteration cap
`MAX_ITERATIONS` as the parameter `cap` (it is read from the environment
with default 12) and the backend response as the oracle argument `r`. -/
def supervisor (cap : Nat) (s : OrchestratorState) (r : LLMResponse) :
    SupervisorResult :=
  let p := capStep cap s (overrideStep cap s (validateRoute (parseStep r)))
  { next_agent := p.1
    reason := p.2
    message := "[Supervisor] Routing to **" ++ p.1 ++ "**: " ++ p.2
    current_phase := if p.1 ≠ "FINISH" then p.1 else "finished"
    iteration_count := s.iteration_count + 1 }

/-- A state with nothing achieved yet, for concrete runs. -/
def emptyState : OrchestratorState :=
  ⟨"", "", [], "", false, "", "start", 0⟩

example :
    (supervisor 12 emptyState ⟨some ⟨some "FINISH", some "all good"⟩, ""⟩).next_agent =
      "requirements" := by
  decide
example :
    (supervisor 12 emptyState ⟨none, "let us do the CODING now"⟩).next_agent =
      "coding" := by
  decide
example :
    (supervisor 3 { emptyState with iteration_count := 3 }
        ⟨some ⟨some "coding", some "keep going"⟩, ""⟩).next_agent = "FINISH" := by
  decide

/-! ### The retry wrapper (`src/orchestrator/llm.py`)

The backend is the oracle `outcomes : Nat → Outcome α`: the result of the
`i`-th `model.invoke` call (counting from 0).  An exception is its class
name together with `str(exc)`; `invoke_with_retry` returns the successful
value or, as `Except.error`, the exception it re-raises, paired with the
number of backend calls it made. -/

/-- One backend call: a response or a raised exception
`(type(exc).__name__, str(exc))`. -/
inductive Outcome (α : Type) where
  | ok (v : α)
  | err (clsName msg : String)
deriving DecidableEq

/-- `_RETRYABLE_PATTERNS` from `llm.py`. -/
def RETRYABLE_PATTERNS : List String :=
  ["429", "rate_limit", "rate limit", "connection error", "connecterror",
   "ssl", "eof occurred", "unexpected_eof", "timeout", "timed out",
   "server_error", "500", "502", "503", "overloaded", "bad gateway",
   "service unavailable"]

/-- `MAX_RETRIES` from `llm.py`. -/
def MAX_RETRIES : Nat := 7

/-- `_is_retryable(exc)` from `llm.py`: scan the patterns, in order, against
`f"{type(exc).__name__.lower()} {str(exc).lower()}"`; the first match
determines the label, no match means fatal (`none`). -/
def is_retryable (clsName msg : String) : Option String :=
  let combined := pyLower clsName ++ " " ++ pyLower msg
  match RETRYABLE_PATTERNS.find? (fun p => pyIn p combined) with
  | none => none
  | some p =>
      if pyIn "429" p || pyIn "rate" p then some "rate limit"
      else if pyIn "ssl" p || pyIn "eof" p || pyIn "connect" p then some "connection error"
      else if pyIn "timeout" p || pyIn "timed" p then some "timeout"
      else some "server error"

/-- Whether an outcome is a classified-transient failure. -/
def isTransient {α : Type} : Outcome α → Bool
  | .ok _ => false
  | .err cls msg => (is_retryable cls msg).isSome

/-- The body of the `for attempt in range(MAX_RETRIES)` loop of
`invoke_with_retry`, from attempt number `attempt` with `fuel` attempts left
(`fuel = MAX_RETRIES - attempt` at every reachable call).  Returns the
result and the number of backend calls made.  The `fuel = 0` branch models
the loop falling through (dead code for `MAX_RETRIES > 0`). -/
def retryGo {α : Type} (outcomes : Nat → Outcome α) : Nat → Nat → Except (String × String) α × Nat
  | _, 0 => (.error ("", "loop exhausted"), 0)
  | attempt, fuel + 1 =>
    match outcomes attempt with
    | .ok v => (.ok v, 1)
    | .err cls msg =>
        if (is_retryable cls msg).isSome && attempt < MAX_RETRIES - 1 then
          let r := retryGo outcomes (attempt + 1) fuel
          (r.1, r.2 + 1)
        else (.error (cls, msg), 1)

/-- `invoke_with_retry(model, messages)` from `llm.py`, over the call
oracle. -/
def invoke_with_retry {α : Type} (outcomes : Nat → Outcome α) :
    Except (String × String) α × Nat :=
  retryGo outcomes 0 MAX_RETRIES

example :
    invoke_with_retry (fun i => if i < 2 then Outcome.err "RateLimitError" "429 too many requests" else .ok 42) =
      (.ok 42, 3) := by
  decide
example :
    invoke_with_retry (fun _ => (Outcome.err "APIError" "server_error 503" : Outcome Nat)) =
      (.error ("APIError", "server_error 503"), 7) := by
  decide
example :
    invoke_with_retry (fun _ => (Outcome.err "ValueError" "bad schema" : Outcome Nat)) =
      (.error ("ValueError", "bad schema"), 1) := by
  decide

/-! ### The tool-calling loops (`agents/coding.py`, `agents/testing.py`)

Both agents run the same `while response.tool_calls:` loop.  The backend is
the oracle pair (`first`, `script`): the response to the initial request and
the finite list of responses to the successive re-invocations; `scriptEnded`
models the run needing more backend calls than the script provides.  A
capability function maps its argument dict and the filesystem to the result
string and the new filesystem, or to a raised exception (`Except.error`),
which the source loop does not catch. -/

/-- A `ToolCallRequest`: correlation id, capability name, argument dict. -/
structure ToolCall where
  name : String
  args : List (String × String)
  id : String
deriving DecidableEq

/-- An assistant response: text content plus tool-call requests. -/
structure AIResp where
  content : String
  tool_calls : List ToolCall
deriving DecidableEq

/-- A `ToolMessage(content=..., tool_call_id=...)`. -/
structure ToolMsg where
  content : String
  tool_call_id : String
deriving DecidableEq

/-- A message appended to the agent's `result_messages`. -/
inductive Msg where
  | ai (r : AIResp)
  | tool (t : ToolMsg)
deriving DecidableEq

/-- A capability function, as called by `tool_fn.invoke(call["args"])`. -/
abbrev ToolFn : Type :=
  List (String × String) → FileSys → Except String (String × FileSys)

/-- `tool_map = {t.name: t for t in TOOLS}`. -/
abbrev ToolMap : Type := List (String × ToolFn)

/-- `tool_map.get(call["name"])`. -/
def lookupTool (tools : ToolMap) (n : String) : Option ToolFn :=
  (tools.find? (fun p => p.1 == n)).map (fun p => p.2)

/-- `CODING_TOOLS = [write_file, read_file, list_files]`, with the default
`directory="."` of `list_files` applied when the argument is absent. -/
def CODING_TOOLS (cwd : List String) (od : String) : ToolMap :=
  [("write_file", fun args fs =>
      write_file cwd od (dictGet args "filename" "") (dictGet args "content" "") fs),
   ("read_file", fun args fs => read_file cwd od (dictGet args "filename" "") fs),
   ("list_files", fun args fs => list_files cwd od (dictGet args "directory" ".") fs)]

/-- `TESTING_TOOLS = [write_file, read_file, list_files, run_tests,
run_command]`.  `run_tests` and `run_command` (`tools/test_tools.py`) launch
subprocesses, so they enter the embedding as uninterpreted capability
functions. -/
def TESTING_TOOLS (cwd : List String) (od : String)
    (runTestsFn runCommandFn : ToolFn) : ToolMap :=
  CODING_TOOLS cwd od ++ [("run_tests", runTestsFn), ("run_command", runCommandFn)]

/-- What one round of the `for call in response.tool_calls` loop in
`coding.py` produces. -/
structure CodingRound where
  tool_results : List ToolMsg
  code_files : List (String × String)
  files_written : Nat
  fs : FileSys

/-- One round of `coding.py` lines 62-75: calls with unregistered names are
skipped (`continue`); a `write_file` call records `args["filename"] ->
args["content"]` in `code_files` and counts toward `files_written`; each
executed call appends a `ToolMessage` correlated by `call["id"]`. -/
def codingRound (tools : ToolMap) :
    List ToolCall → List (String × String) → FileSys → Except String CodingRound
  | [], cf, fs => .ok ⟨[], cf, 0, fs⟩
  | c :: rest, cf, fs =>
    match lookupTool tools c.name with
    | none => codingRound tools rest cf fs
    | some f =>
      match f c.args fs with
      | .error e => .error e
      | .ok r =>
        let cf' :=
          if c.name == "write_file" then
            dictSet cf (dictGet c.args "filename" "") (dictGet c.args "content" "")
          else cf
        match codingRound tools rest cf' r.2 with
        | .error e => .error e
        | .ok out =>
            .ok ⟨⟨r.1, c.id⟩ :: out.tool_results, out.code_files,
                 (if c.name == "write_file" then 1 else 0) + out.files_written,
                 out.fs⟩

/-- The requests and appended results of one loop round. -/
structure RoundTrace where
  calls : List ToolCall
  results : List ToolMsg
deriving DecidableEq

/-- Possible outcomes of a loop run against a finite oracle script. -/
inductive LoopRes (β : Type) where
  | done (out : β)
  | toolError (e : String)
  | scriptEnded
deriving DecidableEq

/-- What the `while` loop of `coding.py` has produced when it exits. -/
structure CodingLoopOut where
  trace : List RoundTrace
  final : AIResp
  messages : List Msg
  code_files : List (String × String)
  files_written : Nat
  fs : FileSys

/-- The `while response.tool_calls:` loop of `coding.py` lines 58-82:
`messages` is `result_messages` (the initial response, then each round's
tool messages followed by the next response). -/
def codingLoop (tools : ToolMap) :
    AIResp → List AIResp → List (String × String) → FileSys → LoopRes CodingLoopOut
  | resp, script, cf, fs =>
    if resp.tool_calls.isEmpty then
      .done ⟨[], resp, [.ai resp], cf, 0, fs⟩
    else
      match script with
      | [] => .scriptEnded
      | next :: rest =>
        match codingRound tools resp.tool_calls cf fs with
        | .error e => .toolError e
        | .ok rnd =>
          match codingLoop tools next rest rnd.code_files rnd.fs with
          | .done out =>
              .done ⟨⟨resp.tool_calls, rnd.tool_results⟩ :: out.trace, out.final,
                     .ai resp :: (rnd.tool_results.map Msg.tool ++ out.messages),
                     out.code_files, rnd.files_written + out.files_written, out.fs⟩
          | .toolError e => .toolError e
          | .scriptEnded => .scriptEnded

/-- The update dict `coding_agent` returns (`coding.py` lines 86-90). -/
structure CodingUpdate where
  messages : List Msg
  code_files : List (String × String)
  current_phase : String

/-- `coding_agent(state)` from `coding.py`, starting from a copy of
`state.get("code_files", {})`. -/
def coding_agent (tools : ToolMap) (state_code_files : List (String × String))
    (first : AIResp) (script : List AIResp) (fs : FileSys) : LoopRes CodingUpdate :=
  match codingLoop tools first script state_code_files fs with
  | .done out => .done ⟨out.messages, out.code_files, "coding"⟩
  | .toolError e => .toolError e
  | .scriptEnded => .scriptEnded

/-- What one round of the tool loop in `testing.py` produces. -/
structure TestingRound where
  tool_results : List ToolMsg
  outputs : List String
  files_written : Nat
  fs : FileSys

/-- One round of `testing.py` lines 77-89: like the coding round, but every
executed call's `str(tool_result)` is also collected into
`all_tool_outputs`. -/
def testingRound (tools : ToolMap) :
    List ToolCall → FileSys → Except String TestingRound
  | [], fs => .ok ⟨[], [], 0, fs⟩
  | c :: rest, fs =>
    match lookupTool tools c.name with
    | none => testingRound tools rest fs
    | some f =>
      match f c.args fs with
      | .error e => .error e
      | .ok r =>
        match testingRound tools rest r.2 with
        | .error e => .error e
        | .ok out =>
            .ok ⟨⟨r.1, c.id⟩ :: out.tool_results, r.1 :: out.outputs,
                 (if c.name == "write_file" then 1 else 0) + out.files_written,
                 out.fs⟩

/-- What the `while` loop of `testing.py` has produced when it exits. -/
structure TestingLoopOut where
  trace : List RoundTrace
  final : AIResp
  messages : List Msg
  outputs : List String
  files_written : Nat
  fs : FileSys

/-- The `while response.tool_calls:` loop of `testing.py` lines 73-96. -/
def testingLoop (tools : ToolMap) :
    AIResp → List AIResp → FileSys → LoopRes TestingLoopOut
  | resp, script, fs =>
    if resp.tool_calls.isEmpty then
      .done ⟨[], resp, [.ai resp], [], 0, fs⟩
    else
      match script with
      | [] => .scriptEnded
      | next :: rest =>
        match testingRound tools resp.tool_calls fs with
        | .error e => .toolError e
        | .ok rnd =>
          match testingLoop tools next rest rnd.fs with
          | .done out =>
              .done ⟨⟨resp.tool_calls, rnd.tool_results⟩ :: out.trace, out.final,
                     .ai resp :: (rnd.tool_results.map Msg.tool ++ out.messages),
                     rnd.outputs ++ out.outputs,
                     rnd.files_written + out.files_written, out.fs⟩
          | .toolError e => .toolError e
          | .scriptEnded => .scriptEnded

/-- `FAILURE_KEYWORDS` from `testing.py`. -/
def FAILURE_KEYWORDS : List String :=
  ["FAILED", "ERROR", "FAILURE", "AssertionError", "Exception"]

/-- `_detect_passing(test_output)` from `testing.py`: no failure keyword
occurs, case-insensitively, in the given text. -/
def detect_passing (test_output : String) : Bool :=
  FAILURE_KEYWORDS.all (fun kw => !(pyIn (pyUpper kw) (pyUpper test_output)))

/-- The update dict `testing_agent` returns (`testing.py` lines 107-112). -/
structure TestingUpdate where
  messages : List Msg
  test_results : String
  tests_passing : Bool
  current_phase : String

/-- `testing_agent(state)` from `testing.py`: run the loop, then classify
`test_output + "\n".join(all_tool_outputs)` with `_detect_passing`. -/
def testing_agent (tools : ToolMap) (first : AIResp) (script : List AIResp)
    (fs : FileSys) : LoopRes TestingUpdate :=
  match testingLoop tools first script fs with
  | .done out =>
      let test_output := out.final.content
      .done ⟨out.messages, test_output,
             detect_passing (test_output ++ pyJoin "\n" out.outputs), "testing"⟩
  | .toolError e => .toolError e
  | .scriptEnded => .scriptEnded

example : detect_passing "2 passed in 0.03s" = true := by decide
example : detect_passing "1 failed, 1 passed" = false := by decide

/-! ### Spec-side comparison definitions and result extractors -/

/-- Following the spec's words (§4.1 step 4): "the stage owning the first
unmet milestone in the configured order" requirements, system_design,
coding, testing, monitoring.  Defined independently of `overrideRoute` to
compare the source's routing against the spec's. -/
def specFirstUnmetStage (s : OrchestratorState) : String :=
  if !has_requirements s then "requirements"
  else if !has_design s then "system_design"
  else if !has_code s then "coding"
  else if !s.tests_passing then "testing"
  else "monitoring"

/-- Extract the output of a completed coding loop (dummy on non-`done`). -/
def codingOutOf (r : LoopRes CodingLoopOut) : CodingLoopOut :=
  match r with
  | .done o => o
  | _ => ⟨[], ⟨"", []⟩, [], [], 0, ⟨[], []⟩⟩

/-- Extract the output of a completed testing loop (dummy on non-`done`). -/
def testingOutOf (r : LoopRes TestingLoopOut) : TestingLoopOut :=
  match r with
  | .done o => o
  | _ => ⟨[], ⟨"", []⟩, [], [], 0, ⟨[], []⟩⟩

/-- Extract the update of a completed testing agent (dummy on non-`done`). -/
def testingUpdOf (r : LoopRes TestingUpdate) : TestingUpdate :=
  match r with
  | .done o => o
  | _ => ⟨[], "", false, ""⟩

/-- A trivial capability function standing in for the subprocess-backed
tools in runs that never invoke them. -/
def dummyTool : ToolFn := fun _ fs => .ok ("", fs)

/-- Coding tools over `cwd=/app`, `ORCHESTRATOR_OUTPUT_DIR=output`. -/
def c3Tools : ToolMap := CODING_TOOLS ["app"] "output"

/-- A first response carrying one request for an unregistered tool name. -/
def c3First : AIResp := ⟨"calling a tool", [⟨"bogus_tool", [], "call_1"⟩]⟩

/-- A first response carrying one `write_file` request. -/
def c3WitFirst : AIResp :=
  ⟨"writing", [⟨"write_file", [("filename", "a.py"), ("content", "hi")], "c1"⟩]⟩

/-- A filesystem with just the output directory. -/
def c3Fs : FileSys := ⟨[["app", "output"]], []⟩

/-- Testing tools over `cwd=/app`, `ORCHESTRATOR_OUTPUT_DIR=output`, with
the subprocess tools as no-op oracles, for testing-loop runs. -/
def c3TestTools : ToolMap := TESTING_TOOLS ["app"] "output" dummyTool dummyTool

/-- A first response carrying one `run_tests` request. -/
def c3TestFirst : AIResp := ⟨"running tests", [⟨"run_tests", [], "t1"⟩]⟩

/-- Testing tools over `cwd=/app`, `ORCHESTRATOR_OUTPUT_DIR=output`, with
the subprocess tools as no-op oracles. -/
def c10Tools : ToolMap := TESTING_TOOLS ["app"] "output" dummyTool dummyTool

/-- A first response reading two artifacts. -/
def c10First : AIResp :=
  ⟨"", [⟨"read_file", [("filename", "a.txt")], "c1"⟩,
        ⟨"read_file", [("filename", "b.txt")], "c2"⟩]⟩

/-- A filesystem whose two artifacts split the keyword `FAILED` across the
tool-output boundary. -/
def c10Fs : FileSys :=
  ⟨[["app", "output"]],
   [(["app", "output", "a.txt"], "FAIL"), (["app", "output", "b.txt"], "ED")]⟩

/-! ### Lemmas about the string primitives -/

theorem substrB_infix_iff {n : List Char} : ∀ {h : List Char}, substrB n h = true ↔ n <:+: h := by
  intro h
  induction h with
  | nil =>
      simp only [substrB, List.isEmpty_iff, List.infix_nil]
  | cons c t ih =>
      simp only [substrB, Bool.or_eq_true, List.infix_cons_iff, ih,
        List.isPrefixOf_iff_prefix]

theorem pyIn_infix_iff {n h : String} : pyIn n h = true ↔ n.data <:+: h.data :=
  substrB_infix_iff

theorem infix_append_of_infix_left {α : Type} {x a : List α} (b : List α)
    (h : x <:+: a) : x <:+: a ++ b := by
  obtain ⟨s, t, rfl⟩ := h
  exact ⟨s, t ++ b, by simp⟩

theorem infix_append_of_infix_right {α : Type} {x b : List α} (a : List α)
    (h : x <:+: b) : x <:+: a ++ b := by
  obtain ⟨s, t, rfl⟩ := h
  exact ⟨a ++ s, t, by simp⟩

theorem infix_pyJoin_of_mem {sep m : String} : ∀ {l : List String}, m ∈ l →
    m.data <:+: (pyJoin sep l).data := by
  intro l
  induction l with
  | nil => intro h; cases h
  | cons x t ih =>
      intro hm
      cases t with
      | nil =>
          rcases List.mem_cons.mp hm with rfl | h
          · exact ⟨[], [], by simp [pyJoin]⟩
          · cases h
      | cons y u =>
          rcases List.mem_cons.mp hm with rfl | hm
          · show m.data <:+: (m ++ sep ++ pyJoin sep (y :: u)).data
            simp only [String.data_append]
            exact infix_append_of_infix_left _
              (infix_append_of_infix_left _ ⟨[], [], by simp⟩)
          · show m.data <:+: (x ++ sep ++ pyJoin sep (y :: u)).data
            simp only [String.data_append]
            exact infix_append_of_infix_right _ (ih hm)

/-- `pyIn` finds any member of the joined list inside
`pre ++ join ++ mid ++ post ++ tail`-shaped strings; stated for the exact
shape of the supervisor's override reason. -/
theorem pyIn_override_reason {m pre mid tail rt : String} {l : List String}
    (hm : m ∈ l) :
    pyIn m (pre ++ pyJoin ", " l ++ mid ++ rt ++ tail) = true := by
  rw [pyIn_infix_iff]
  simp only [String.data_append, List.append_assoc]
  exact infix_append_of_infix_right _
    (infix_append_of_infix_left _ (infix_pyJoin_of_mem hm))

/-! ### Lemmas about the code-point order and `pySorted` -/

theorem charLt_asymm {a b : Char} (h : charLt a b = true) : charLt b a = false := by
  unfold charLt at h ⊢
  rw [decide_eq_true_eq] at h
  rw [decide_eq_false_iff_not]
  omega

theorem charEq_of_not_lt {a b : Char} (h1 : charLt a b = false)
    (h2 : charLt b a = false) : a = b := by
  unfold charLt at h1 h2
  rw [decide_eq_false_iff_not] at h1 h2
  have h3 : a.toNat = b.toNat := by omega
  exact Char.ext (UInt32.ext h3)

theorem strLtB_asymm : ∀ {a b : List Char}, strLtB a b = true → strLtB b a = false := by
  intro a
  induction a with
  | nil =>
      intro b h
      cases b with
      | nil => simp [strLtB] at h
      | cons c t => simp [strLtB]
  | cons x xs ih =>
      intro b h
      cases b with
      | nil => simp [strLtB] at h
      | cons y ys =>
          simp only [strLtB, Bool.or_eq_true, Bool.and_eq_true] at h ⊢
          rcases h with h | ⟨hxy, hrec⟩
          · have h1 := charLt_asymm h
            have h2 : (y == x) = false := by
              by_contra hne
              rw [Bool.not_eq_false, beq_iff_eq] at hne
              subst hne
              rw [charLt_asymm h] at h
              cases h
            simp [h1, h2]
          · rw [beq_iff_eq] at hxy
            subst hxy
            have h1 : charLt x x = false := by
              simp [charLt]
            simp [h1, ih hrec]

theorem strLtB_irrefl : ∀ {a : List Char}, strLtB a a = false := by
  intro a
  induction a with
  | nil => rfl
  | cons x xs ih => simp [strLtB, ih, charLt]

theorem strLtB_connex : ∀ {a b : List Char}, strLtB a b = false →
    strLtB b a = false → a = b := by
  intro a
  induction a with
  | nil =>
      intro b h1 _
      cases b with
      | nil => rfl
      | cons c t => simp [strLtB] at h1
  | cons x xs ih =>
      intro b h1 h2
      cases b with
      | nil => simp [strLtB] at h2
      | cons y ys =>
          simp only [strLtB, Bool.or_eq_false_iff, Bool.and_eq_false_iff] at h1 h2
          have hxy : x = y := charEq_of_not_lt h1.1 h2.1
          subst hxy
          rcases h1.2 with h | h
          · rw [beq_self_eq_true] at h; cases h
          · rcases h2.2 with h' | h'
            · rw [beq_self_eq_true] at h'; cases h'
            · rw [ih h h']

theorem strLtB_trans : ∀ {a b c : List Char}, strLtB a b = true →
    strLtB b c = true → strLtB a c = true := by
  intro a
  induction a with
  | nil =>
      intro b c h1 h2
      cases b with
      | nil => simp [strLtB] at h1
      | cons y ys =>
          cases c with
          | nil => simp [strLtB] at h2
          | cons z zs => simp [strLtB]
  | cons x xs ih =>
      intro b c h1 h2
      cases b with
      | nil => simp [strLtB] at h1
      | cons y ys =>
          cases c with
          | nil => simp [strLtB] at h2
          | cons z zs =>
              simp only [strLtB, Bool.or_eq_true, Bool.and_eq_true,
                beq_iff_eq] at h1 h2 ⊢
              rcases h1 with h1 | ⟨rfl, h1⟩
              · rcases h2 with h2 | ⟨rfl, h2⟩
                · left
                  simp only [charLt, decide_eq_true_eq] at h1 h2 ⊢
                  omega
                · left; exact h1
              · rcases h2 with h2 | ⟨rfl, h2⟩
                · left; exact h2
                · right; exact ⟨rfl, ih h1 h2⟩

theorem strLeB_total (a b : String) : strLeB a b = true ∨ strLeB b a = true := by
  unfold strLeB
  cases h : strLtB b.data a.data
  · left; rfl
  · right
    rw [strLtB_asymm h]
    rfl

theorem strLeB_trans {a b c : String} (h1 : strLeB a b = true)
    (h2 : strLeB b c = true) : strLeB a c = true := by
  unfold strLeB at *
  rw [Bool.not_eq_true'] at h1 h2
  rw [Bool.not_eq_true']
  cases h3 : strLtB c.data a.data
  · rfl
  · exfalso
    cases h4 : strLtB a.data b.data
    · have hab := strLtB_connex h4 h1
      rw [hab] at h3
      rw [h3] at h2
      simp at h2
    · have h5 := strLtB_trans h3 h4
      rw [h5] at h2
      simp at h2

theorem mem_orderedInsertStr {a x : String} : ∀ {l : List String},
    a ∈ orderedInsertStr x l ↔ a = x ∨ a ∈ l := by
  intro l
  induction l with
  | nil => simp [orderedInsertStr]
  | cons b t ih =>
      by_cases h : strLeB x b = true
      · simp [orderedInsertStr, h]
      · rw [Bool.not_eq_true] at h
        simp only [orderedInsertStr, h, Bool.false_eq_true, if_false,
          List.mem_cons, ih]
        tauto

theorem mem_pySorted {a : String} : ∀ {l : List String},
    a ∈ pySorted l ↔ a ∈ l := by
  intro l
  induction l with
  | nil => simp [pySorted]
  | cons b t ih => simp [pySorted, mem_orderedInsertStr, ih]

theorem pairwise_orderedInsertStr {x : String} : ∀ {l : List String},
    l.Pairwise (fun a b => strLeB a b = true) →
    (orderedInsertStr x l).Pairwise (fun a b => strLeB a b = true) := by
  intro l
  induction l with
  | nil => intro _; simp [orderedInsertStr]
  | cons b t ih =>
      intro h
      rw [List.pairwise_cons] at h
      by_cases hle : strLeB x b = true
      · simp only [orderedInsertStr, hle, if_true]
        rw [List.pairwise_cons]
        refine ⟨?_, List.pairwise_cons.mpr h⟩
        intro a ha
        rcases List.mem_cons.mp ha with rfl | ha
        · exact hle
        · exact strLeB_trans hle (h.1 a ha)
      · rw [Bool.not_eq_true] at hle
        simp only [orderedInsertStr, hle, Bool.false_eq_true, if_false]
        rw [List.pairwise_cons]
        refine ⟨?_, ih h.2⟩
        intro a ha
        rw [mem_orderedInsertStr] at ha
        rcases ha with rfl | ha
        · rcases strLeB_total b a with hba | hab
          · exact hba
          · unfold strLeB at hab hle ⊢
            rw [Bool.not_eq_true'] at hab
            rw [hab] at hle
            cases hle
        · exact h.1 a ha

theorem pairwise_pySorted : ∀ (l : List String),
    (pySorted l).Pairwise (fun a b => strLeB a b = true) := by
  intro l
  induction l with
  | nil => simp [pySorted]
  | cons b t ih => exact pairwise_orderedInsertStr ih

/-! ### Lemmas about the supervisor -/

theorem specStage_ne_finish (s : OrchestratorState) :
    ¬ specFirstUnmetStage s = "FINISH" := by
  unfold specFirstUnmetStage
  split
  · decide
  · split
    · decide
    · split
      · decide
      · split
        · decide
        · decide

theorem overrideRoute_spec (s : OrchestratorState) (h : all_done s = false) :
    overrideRoute s =
      (if specFirstUnmetStage s = "testing" then "coding"
       else specFirstUnmetStage s) := by
  unfold all_done at h
  cases h1 : has_requirements s <;> cases h2 : has_design s <;>
    cases h3 : has_code s <;> cases h4 : s.tests_passing <;>
      cases h5 : has_monitoring s <;>
    rw [h1, h2, h3, h4, h5] at h <;>
    first
      | exact absurd h (by decide)
      | (unfold overrideRoute missingList specFirstUnmetStage
         rw [h1, h2, h3, h4, h5]
         decide)

theorem overrideRoute_ne_finish (s : OrchestratorState) (h : all_done s = false) :
    ¬ overrideRoute s = "FINISH" := by
  rw [overrideRoute_spec s h]
  split
  · decide
  · exact specStage_ne_finish s

theorem supervisor_next_eq (cap : Nat) (s : OrchestratorState) (r : LLMResponse) :
    (supervisor cap s r).next_agent =
      (capStep cap s (overrideStep cap s (validateRoute (parseStep r)))).1 := rfl

theorem supervisor_reason_eq (cap : Nat) (s : OrchestratorState) (r : LLMResponse) :
    (supervisor cap s r).reason =
      (capStep cap s (overrideStep cap s (validateRoute (parseStep r)))).2 := rfl

theorem capStep_of_lt {cap : Nat} {s : OrchestratorState} (p : String × String)
    (h : s.iteration_count < cap) : capStep cap s p = p := by
  unfold capStep
  rw [if_neg]
  intro hh
  omega

/-! ### Claims about the supervisor -/

/-- C1: for every state, the supervisor's decision is terminal (`FINISH`)
only if all five milestones (requirements, system design, code files,
tests passing, monitoring config) hold, or the state's iteration counter is
at least the iteration cap. -/
theorem claim1_finish_requires_completion_or_cap (cap : Nat)
    (s : OrchestratorState) (r : LLMResponse)
    (h : (supervisor cap s r).next_agent = "FINISH") :
    (has_requirements s = true ∧ has_design s = true ∧ has_code s = true
      ∧ s.tests_passing = true ∧ has_monitoring s = true)
    ∨ cap ≤ s.iteration_count := by
  by_cases hc : cap ≤ s.iteration_count
  · right
    exact hc
  · left
    have hlt : s.iteration_count < cap := Nat.lt_of_not_le hc
    cases hdb : all_done s with
    | true =>
        have := hdb
        unfold all_done at this
        simp only [Bool.and_eq_true] at this
        tauto
    | false =>
        exfalso
        rw [supervisor_next_eq, capStep_of_lt _ hlt] at h
        unfold overrideStep at h
        by_cases hv : (validateRoute (parseStep r)).1 = "FINISH"
        · rw [if_pos ⟨hv, hlt, by rw [hdb]; rfl⟩] at h
          exact overrideRoute_ne_finish s hdb h
        · rw [if_neg (fun hh => hv hh.1)] at h
          exact hv h

/-- Witness for C1 at a fully completed state: the supervisor confirms the
backend's `FINISH` and the disjunction holds. -/
theorem claim1_witness :
    (has_requirements ⟨"r", "d", [("main.py", "x")], "1 passed", true, "m", "testing", 5⟩ = true
      ∧ has_design ⟨"r", "d", [("main.py", "x")], "1 passed", true, "m", "testing", 5⟩ = true
      ∧ has_code ⟨"r", "d", [("main.py", "x")], "1 passed", true, "m", "testing", 5⟩ = true
      ∧ OrchestratorState.tests_passing ⟨"r", "d", [("main.py", "x")], "1 passed", true, "m", "testing", 5⟩ = true
      ∧ has_monitoring ⟨"r", "d", [("main.py", "x")], "1 passed", true, "m", "testing", 5⟩ = true)
    ∨ 12 ≤ OrchestratorState.iteration_count ⟨"r", "d", [("main.py", "x")], "1 passed", true, "m", "testing", 5⟩ :=
  claim1_finish_requires_completion_or_cap 12
    ⟨"r", "d", [("main.py", "x")], "1 passed", true, "m", "testing", 5⟩
    ⟨some ⟨some "FINISH", some "all milestones met"⟩, ""⟩ (by decide)

/-- C6: every supervisor invocation returns an update whose iteration
counter is exactly the input counter plus one, so across invocations the
counter never decreases and never skips a value. -/
theorem claim6_iteration_increment (cap : Nat) (s : OrchestratorState)
    (r : LLMResponse) :
    (supervisor cap s r).iteration_count = s.iteration_count + 1 := rfl

/-- C7: supervisor decision parsing is total — with the two caught
exception classes modelled as `parsed = none`, every unparseable response
degrades to the substring-scan fallback, which either picks the first known
route occurring case-insensitively in the raw text (keeping the raw text as
the reason) or, at worst, yields the terminal decision with the diagnostic
reason. -/
theorem claim7_parse_never_raises (r : LLMResponse) (h : r.parsed = none) :
    (∃ route ∈ VALID_ROUTES, parseStep r = (route, r.content))
    ∨ parseStep r = ("FINISH", "Could not parse routing decision; finishing.") := by
  unfold parseStep
  rw [h]
  cases hf : VALID_ROUTES.find? (fun route => pyIn (pyLower route) (pyLower r.content)) with
  | none => right; rfl
  | some route => exact Or.inl ⟨route, List.mem_of_find?_eq_some hf, rfl⟩

/-- Witness for C7 on gibberish no route name occurs in: the fallback
degrades to the diagnostic terminal decision. -/
theorem claim7_witness :
    (∃ route ∈ VALID_ROUTES, parseStep ⟨none, "!!!"⟩ = (route, "!!!"))
    ∨ parseStep ⟨none, "!!!"⟩ =
        ("FINISH", "Could not parse routing decision; finishing.") :=
  claim7_parse_never_raises ⟨none, "!!!"⟩ rfl

/-- C4 counterexample: at the cap with every milestone unmet, the decision
is terminal but its justification is the fixed message
`Max iterations (3) reached; forcing FINISH.`, which does not name the
unmet `requirements` milestone (nor any other), contradicting the claim
that the justification enumerates every unmet milestone. -/
theorem claim4_counterexample :
    (supervisor 3 { emptyState with iteration_count := 3 }
      ⟨some ⟨some "coding", some "keep going"⟩, ""⟩).next_agent = "FINISH"
    ∧ has_requirements { emptyState with iteration_count := 3 } = false
    ∧ (supervisor 3 { emptyState with iteration_count := 3 }
        ⟨some ⟨some "coding", some "keep going"⟩, ""⟩).reason =
        "Max iterations (3) reached; forcing FINISH."
    ∧ pyIn "requirements"
        (supervisor 3 { emptyState with iteration_count := 3 }
          ⟨some ⟨some "coding", some "keep going"⟩, ""⟩).reason = false := by
  decide

/-- C4 as amended: when the iteration counter has reached the cap the
decision is always terminal, and whenever the pre-cap decision was not
already terminal the justification is the fixed cap message — it does not
enumerate the unmet milestones. -/
theorem claim4_amended_cap_forces_finish (cap : Nat) (s : OrchestratorState)
    (r : LLMResponse) (h : cap ≤ s.iteration_count) :
    (supervisor cap s r).next_agent = "FINISH"
    ∧ ((validateRoute (parseStep r)).1 ≠ "FINISH" →
        (supervisor cap s r).reason =
          "Max iterations (" ++ toString cap ++ ") reached; forcing FINISH.") := by
  have hov : overrideStep cap s (validateRoute (parseStep r)) =
      validateRoute (parseStep r) := by
    unfold overrideStep
    rw [if_neg]
    intro hh
    exact absurd hh.2.1 (by omega)
  rw [supervisor_next_eq, supervisor_reason_eq, hov]
  by_cases hv : (validateRoute (parseStep r)).1 = "FINISH"
  · have hcap : capStep cap s (validateRoute (parseStep r)) =
        validateRoute (parseStep r) := by
      unfold capStep
      rw [if_neg]
      intro hh
      exact hh.2 hv
    rw [hcap]
    exact ⟨hv, fun hne => absurd hv hne⟩
  · have hcap : capStep cap s (validateRoute (parseStep r)) =
        ("FINISH", "Max iterations (" ++ toString cap ++ ") reached; forcing FINISH.") := by
      unfold capStep
      rw [if_pos ⟨h, hv⟩]
    rw [hcap]
    exact ⟨rfl, fun _ => rfl⟩

/-- Witness for C4 (amended) at the cap with a non-terminal backend
decision. -/
theorem claim4_amended_witness :
    (supervisor 3 { emptyState with iteration_count := 4 }
      ⟨some ⟨some "testing", some "run the tests"⟩, ""⟩).next_agent = "FINISH"
    ∧ ((validateRoute (parseStep ⟨some ⟨some "testing", some "run the tests"⟩, ""⟩)).1 ≠ "FINISH" →
        (supervisor 3 { emptyState with iteration_count := 4 }
          ⟨some ⟨some "testing", some "run the tests"⟩, ""⟩).reason =
          "Max iterations (" ++ toString 3 ++ ") reached; forcing FINISH.") :=
  claim4_amended_cap_forces_finish 3 { emptyState with iteration_count := 4 }
    ⟨some ⟨some "testing", some "run the tests"⟩, ""⟩ (by decide)

/-- C5 counterexample: with requirements, design, code and monitoring
present but tests not passing, the first unmet milestone in the configured
order is the testing milestone, whose owning stage is `testing` — yet the
supervisor overrides a premature `FINISH` to `coding`, not `testing`. -/
theorem claim5_counterexample :
    specFirstUnmetStage ⟨"req", "design", [("m.py", "code")], "", false, "mon", "start", 5⟩ =
      "testing"
    ∧ (supervisor 12 ⟨"req", "design", [("m.py", "code")], "", false, "mon", "start", 5⟩
        ⟨some ⟨some "FINISH", some "looks done"⟩, ""⟩).next_agent = "coding"
    ∧ ("coding" : String) ≠ "testing" := by
  decide

/-- C5 as amended: a premature terminal decision below the cap is overridden
to the stage owning the first unmet milestone in the configured order,
except that the testing milestone is remapped to the `coding` stage; the
synthesized justification names every unmet milestone, and when all
milestones are unmet the decision routes to `requirements`. -/
theorem claim5_amended_override_routes_first_unmet (cap : Nat)
    (s : OrchestratorState) (r : LLMResponse)
    (hparse : (parseStep r).1 = "FINISH")
    (hdone : all_done s = false)
    (hiter : s.iteration_count < cap) :
    (supervisor cap s r).next_agent =
      (if specFirstUnmetStage s = "testing" then "coding"
       else specFirstUnmetStage s)
    ∧ (∀ m ∈ missingList s, pyIn m (supervisor cap s r).reason = true)
    ∧ (has_requirements s = false →
        (supervisor cap s r).next_agent = "requirements") := by
  have hcont : VALID_ROUTES.contains (parseStep r).1 = true := by
    rw [hparse]
    decide
  have hval : validateRoute (parseStep r) = parseStep r := by
    unfold validateRoute
    rw [if_pos hcont]
  have hov : overrideStep cap s (parseStep r) =
      (overrideRoute s,
       "Cannot finish yet — incomplete phases: " ++ pyJoin ", " (missingList s)
         ++ ". Routing to " ++ overrideRoute s ++ ".") := by
    unfold overrideStep
    rw [if_pos ⟨hparse, hiter, by rw [hdone]; rfl⟩]
  rw [supervisor_next_eq, supervisor_reason_eq, hval, hov,
    capStep_of_lt _ hiter]
  refine ⟨overrideRoute_spec s hdone, ?_, ?_⟩
  · intro m hm
    exact pyIn_override_reason hm
  · intro hreq
    rw [overrideRoute_spec s hdone]
    have hspec : specFirstUnmetStage s = "requirements" := by
      unfold specFirstUnmetStage
      rw [hreq]
      rfl
    rw [hspec]
    rfl

/-- Witness for C5 (amended) on the all-unmet empty state: the premature
`FINISH` is overridden to `requirements` and the justification names every
unmet milestone. -/
theorem claim5_amended_witness :
    (supervisor 12 emptyState ⟨some ⟨some "FINISH", some "ship it"⟩, ""⟩).next_agent =
      (if specFirstUnmetStage emptyState = "testing" then "coding"
       else specFirstUnmetStage emptyState)
    ∧ (∀ m ∈ missingList emptyState,
        pyIn m (supervisor 12 emptyState ⟨some ⟨some "FINISH", some "ship it"⟩, ""⟩).reason = true)
    ∧ (has_requirements emptyState = false →
        (supervisor 12 emptyState ⟨some ⟨some "FINISH", some "ship it"⟩, ""⟩).next_agent =
          "requirements") :=
  claim5_amended_override_routes_first_unmet 12 emptyState
    ⟨some ⟨some "FINISH", some "ship it"⟩, ""⟩ (by decide) (by decide) (by decide)

/-! ### Lemmas about the retry wrapper -/

theorem retryGo_ok_of_transient {α : Type} (outcomes : Nat → Outcome α) :
    ∀ (fuel attempt N : Nat) (v : α), 1 ≤ N → N ≤ fuel →
    attempt + fuel = MAX_RETRIES →
    (∀ i, i < N - 1 → isTransient (outcomes (attempt + i)) = true) →
    outcomes (attempt + (N - 1)) = .ok v →
    retryGo outcomes attempt fuel = (.ok v, N) := by
  intro fuel
  induction fuel with
  | zero =>
      intro attempt N v h1 h2 _ _ _
      omega
  | succ f ih =>
      intro attempt N v h1 h2 hsum htr hend
      match N, h1 with
      | 1, _ =>
          rw [Nat.add_zero] at hend
          unfold retryGo
          rw [hend]
      | (M + 2), _ =>
          have h0 : isTransient (outcomes attempt) = true := by
            have := htr 0 (by omega)
            rwa [Nat.add_zero] at this
          cases ho : outcomes attempt with
          | ok w =>
              rw [ho] at h0
              simp [isTransient] at h0
          | err cls msg =>
              rw [ho] at h0
              simp only [isTransient] at h0
              have hlt : attempt < MAX_RETRIES - 1 := by
                unfold MAX_RETRIES at hsum ⊢
                omega
              have hrec : retryGo outcomes (attempt + 1) f = (.ok v, M + 1) := by
                apply ih (attempt + 1) (M + 1) v (by omega) (by omega) (by omega)
                · intro i hi
                  have := htr (i + 1) (by omega)
                  rwa [show attempt + (i + 1) = attempt + 1 + i by omega] at this
                · rwa [show attempt + 1 + (M + 1 - 1) = attempt + (M + 2 - 1) by omega]
              have hcond : ((is_retryable cls msg).isSome
                  && decide (attempt < MAX_RETRIES - 1)) = true := by
                rw [h0]
                simp [hlt]
              unfold retryGo
              rw [ho]
              simp [hcond, hrec]

theorem retryGo_allfail {α : Type} (outcomes : Nat → Outcome α) :
    ∀ (fuel attempt : Nat), 1 ≤ fuel → attempt + fuel = MAX_RETRIES →
    (∀ i, attempt + i < MAX_RETRIES → isTransient (outcomes (attempt + i)) = true) →
    ∃ cls msg, outcomes (MAX_RETRIES - 1) = .err cls msg ∧
      retryGo outcomes attempt fuel = (.error (cls, msg), fuel) := by
  intro fuel
  induction fuel with
  | zero =>
      intro attempt h1 _ _
      omega
  | succ f ih =>
      intro attempt h1 hsum htr
      have h0 : isTransient (outcomes attempt) = true := by
        have := htr 0 (by unfold MAX_RETRIES at hsum ⊢; omega)
        rwa [Nat.add_zero] at this
      cases ho : outcomes attempt with
      | ok w =>
          rw [ho] at h0
          simp [isTransient] at h0
      | err cls msg =>
          rw [ho] at h0
          simp only [isTransient] at h0
          match f with
          | 0 =>
              have hatt : attempt = MAX_RETRIES - 1 := by
                unfold MAX_RETRIES at hsum ⊢
                omega
              refine ⟨cls, msg, by rw [← hatt]; exact ho, ?_⟩
              have hcond : ((is_retryable cls msg).isSome
                  && decide (attempt < MAX_RETRIES - 1)) = false := by
                have : decide (attempt < MAX_RETRIES - 1) = false := by
                  rw [decide_eq_false_iff_not]
                  unfold MAX_RETRIES at hatt ⊢
                  omega
                rw [this]
                simp
              unfold retryGo
              rw [ho]
              simp [hcond]
          | (g + 1) =>
              have hlt : attempt < MAX_RETRIES - 1 := by
                unfold MAX_RETRIES at hsum ⊢
                omega
              obtain ⟨cls2, msg2, hend, hrec⟩ :=
                ih (attempt + 1) (by omega) (by omega)
                  (fun i hi => by
                    have := htr (i + 1) (by omega)
                    rwa [show attempt + (i + 1) = attempt + 1 + i by omega] at this)
              refine ⟨cls2, msg2, hend, ?_⟩
              have hcond : ((is_retryable cls msg).isSome
                  && decide (attempt < MAX_RETRIES - 1)) = true := by
                rw [h0]
                simp [hlt]
              unfold retryGo
              rw [ho]
              simp [hcond, hrec]

theorem retryGo_fatal {α : Type} (outcomes : Nat → Outcome α) :
    ∀ (fuel attempt k : Nat) (cls msg : String), k < fuel →
    attempt + fuel = MAX_RETRIES →
    (∀ i, i < k → isTransient (outcomes (attempt + i)) = true) →
    outcomes (attempt + k) = .err cls msg → is_retryable cls msg = none →
    retryGo outcomes attempt fuel = (.error (cls, msg), k + 1) := by
  intro fuel
  induction fuel with
  | zero =>
      intro attempt k cls msg h1 _ _ _ _
      omega
  | succ f ih =>
      intro attempt k cls msg h1 hsum htr hend hfatal
      match k with
      | 0 =>
          rw [Nat.add_zero] at hend
          have hcond : ((is_retryable cls msg).isSome
              && decide (attempt < MAX_RETRIES - 1)) = false := by
            rw [hfatal]
            simp
          unfold retryGo
          rw [hend]
          simp [hcond]
      | (j + 1) =>
          have h0 : isTransient (outcomes attempt) = true := by
            have := htr 0 (by omega)
            rwa [Nat.add_zero] at this
          cases ho : outcomes attempt with
          | ok w =>
              rw [ho] at h0
              simp [isTransient] at h0
          | err cls0 msg0 =>
              rw [ho] at h0
              simp only [isTransient] at h0
              have hlt : attempt < MAX_RETRIES - 1 := by
                unfold MAX_RETRIES at hsum ⊢
                omega
              have hrec : retryGo outcomes (attempt + 1) f = (.error (cls, msg), j + 1) := by
                apply ih (attempt + 1) j cls msg (by omega) (by omega)
                · intro i hi
                  have := htr (i + 1) (by omega)
                  rwa [show attempt + (i + 1) = attempt + 1 + i by omega] at this
                · rwa [show attempt + 1 + j = attempt + (j + 1) by omega]
                · exact hfatal
              have hcond : ((is_retryable cls0 msg0).isSome
                  && decide (attempt < MAX_RETRIES - 1)) = true := by
                rw [h0]
                simp [hlt]
              unfold retryGo
              rw [ho]
              simp [hcond, hrec]

/-! ### Claim about the retry wrapper -/

/-- C2: (a) with `N - 1` classified-transient failures followed by a success
(`N ≤ MAX_RETRIES`), the wrapper makes exactly `N` backend calls and
returns the `N`-th result; (b) with `MAX_RETRIES` consecutive transient
failures it re-raises the last error after exactly `MAX_RETRIES` calls;
(c) a fatal/unclassified error at call `k` propagates immediately after
`k + 1` calls. -/
theorem claim2_retry_wrapper {α : Type} (outcomes : Nat → Outcome α) :
    (∀ (N : Nat) (v : α), 1 ≤ N → N ≤ MAX_RETRIES →
      (∀ i, i < N - 1 → isTransient (outcomes i) = true) →
      outcomes (N - 1) = .ok v →
      invoke_with_retry outcomes = (.ok v, N))
    ∧ ((∀ i, i < MAX_RETRIES → isTransient (outcomes i) = true) →
      ∃ cls msg, outcomes (MAX_RETRIES - 1) = .err cls msg ∧
        invoke_with_retry outcomes = (.error (cls, msg), MAX_RETRIES))
    ∧ (∀ (k : Nat) (cls msg : String), k < MAX_RETRIES →
      (∀ i, i < k → isTransient (outcomes i) = true) →
      outcomes k = .err cls msg → is_retryable cls msg = none →
      invoke_with_retry outcomes = (.error (cls, msg), k + 1)) := by
  refine ⟨?_, ?_, ?_⟩
  · intro N v h1 h2 htr hend
    exact retryGo_ok_of_transient outcomes MAX_RETRIES 0 N v h1 h2 rfl
      (fun i hi => by simpa using htr i hi) (by simpa using hend)
  · intro htr
    exact retryGo_allfail outcomes MAX_RETRIES 0 (by decide) rfl
      (fun i hi => by simpa using htr i (by simpa using hi))
  · intro k cls msg hk htr hend hfatal
    exact retryGo_fatal outcomes MAX_RETRIES 0 k cls msg hk rfl
      (fun i hi => by simpa using htr i hi) (by simpa using hend) hfatal

/-- Witness for C2: a rate-limited backend succeeding on call 3 yields the
success after exactly 3 calls; a persistently failing backend re-raises
after exactly 7 calls; an unclassified `ValueError` propagates after 1
call. -/
theorem claim2_witness :
    invoke_with_retry
        (fun i => if i < 2 then Outcome.err "RateLimitError" "429 too many requests"
                  else .ok 42) = (.ok 42, 3)
    ∧ invoke_with_retry
        (fun _ => (Outcome.err "APIError" "server_error 503" : Outcome Nat)) =
        (.error ("APIError", "server_error 503"), 7)
    ∧ invoke_with_retry
        (fun _ => (Outcome.err "ValueError" "bad schema" : Outcome Nat)) =
        (.error ("ValueError", "bad schema"), 1) := by
  refine ⟨?_, ?_, ?_⟩
  · exact (claim2_retry_wrapper
      (fun i => if i < 2 then Outcome.err "RateLimitError" "429 too many requests"
                else .ok 42)).1 3 42 (by decide) (by decide) (by decide) (by decide)
  · obtain ⟨cls, msg, hend, hrun⟩ := (claim2_retry_wrapper
      (fun _ => (Outcome.err "APIError" "server_error 503" : Outcome Nat))).2.1
      (by decide)
    have hend' : Outcome.err (α := Nat) "APIError" "server_error 503" =
        Outcome.err cls msg := hend
    cases hend'
    exact hrun
  · exact (claim2_retry_wrapper
      (fun _ => (Outcome.err "ValueError" "bad schema" : Outcome Nat))).2.2 0
      "ValueError" "bad schema" (by decide) (by omega) (by decide) (by decide)

/-! ### Lemmas about the tool-calling loop -/

theorem codingRound_ids (tools : ToolMap) :
    ∀ (calls : List ToolCall) (cf : List (String × String)) (fs : FileSys)
      (out : CodingRound),
    codingRound tools calls cf fs = .ok out →
    out.tool_results.map (fun m => m.tool_call_id) =
      (calls.filter (fun c => (lookupTool tools c.name).isSome)).map
        (fun c => c.id) := by
  intro calls
  induction calls with
  | nil =>
      intro cf fs out h
      simp only [codingRound] at h
      cases h
      simp
  | cons c rest ih =>
      intro cf fs out h
      simp only [codingRound] at h
      split at h
      next hl =>
        rw [List.filter_cons_of_neg (by simp [hl])]
        exact ih cf fs out h
      next f hl =>
        split at h
        next e hf => exact Except.noConfusion h
        next r hf =>
          split at h
          next e hrec => exact Except.noConfusion h
          next out2 hrec =>
            cases h
            rw [List.filter_cons_of_pos (by simp [hl])]
            simp only [List.map_cons]
            rw [ih _ _ _ hrec]

theorem testingRound_ids (tools : ToolMap) :
    ∀ (calls : List ToolCall) (fs : FileSys) (out : TestingRound),
    testingRound tools calls fs = .ok out →
    out.tool_results.map (fun m => m.tool_call_id) =
      (calls.filter (fun c => (lookupTool tools c.name).isSome)).map
        (fun c => c.id) := by
  intro calls
  induction calls with
  | nil =>
      intro fs out h
      simp only [testingRound] at h
      cases h
      simp
  | cons c rest ih =>
      intro fs out h
      simp only [testingRound] at h
      split at h
      next hl =>
        rw [List.filter_cons_of_neg (by simp [hl])]
        exact ih fs out h
      next f hl =>
        split at h
        next e hf => exact Except.noConfusion h
        next r hf =>
          split at h
          next e hrec => exact Except.noConfusion h
          next out2 hrec =>
            cases h
            rw [List.filter_cons_of_pos (by simp [hl])]
            simp only [List.map_cons]
            rw [ih _ _ hrec]

/-! ### Claims about the tool-calling loop -/

/-- C3 counterexample: a round whose single `ToolCallRequest` names an
unregistered capability (`bogus_tool`) appends zero `ToolResult` messages
(the source `continue`s past unknown names), so the count of appended
results does not equal the count of requests of that round. -/
theorem claim3_counterexample :
    codingLoop c3Tools c3First [⟨"done", []⟩] [] c3Fs =
      .done (codingOutOf (codingLoop c3Tools c3First [⟨"done", []⟩] [] c3Fs))
    ∧ (codingOutOf (codingLoop c3Tools c3First [⟨"done", []⟩] [] c3Fs)).trace.map
        (fun rt => (rt.calls.length, rt.results.length)) = [(1, 0)] :=
  ⟨rfl, rfl⟩

/-- Per-round correlation/count property and termination condition for the
`coding.py` loop. -/
theorem codingLoop_round_property (tools : ToolMap) :
    ∀ (script : List AIResp) (first : AIResp) (cf : List (String × String))
      (fs : FileSys) (out : CodingLoopOut),
    codingLoop tools first script cf fs = .done out →
    (∀ rt ∈ out.trace,
        rt.results.map (fun m => m.tool_call_id) =
          (rt.calls.filter (fun c => (lookupTool tools c.name).isSome)).map
            (fun c => c.id)
        ∧ rt.results.length =
            (rt.calls.filter (fun c => (lookupTool tools c.name).isSome)).length
        ∧ rt.calls ≠ [])
    ∧ out.final.tool_calls = [] := by
  intro script
  induction script with
  | nil =>
      intro first cf fs out h
      simp only [codingLoop] at h
      split at h
      next hemp =>
        cases h
        refine ⟨fun rt hrt => absurd hrt (by simp), ?_⟩
        exact List.isEmpty_iff.mp hemp
      next hemp => exact LoopRes.noConfusion h
  | cons next_ rest ih =>
      intro first cf fs out h
      simp only [codingLoop] at h
      split at h
      next hemp =>
        cases h
        refine ⟨fun rt hrt => absurd hrt (by simp), ?_⟩
        exact List.isEmpty_iff.mp hemp
      next hemp =>
        split at h
        next e hr => exact LoopRes.noConfusion h
        next rnd hr =>
          split at h
          next out2 hrec =>
            cases h
            obtain ⟨ihtrace, ihfinal⟩ := ih next_ rnd.code_files rnd.fs out2 hrec
            refine ⟨?_, ihfinal⟩
            intro rt hrt
            rcases List.mem_cons.mp hrt with rfl | hrt
            · have hids := codingRound_ids tools first.tool_calls cf fs rnd hr
              refine ⟨hids, ?_, ?_⟩
              · have hlen := congrArg List.length hids
                rwa [List.length_map, List.length_map] at hlen
              · intro hnil
                have hnil' : first.tool_calls = [] := hnil
                rw [hnil'] at hemp
                simp at hemp
            · exact ihtrace rt hrt
          next e hrec => exact LoopRes.noConfusion h
          next hrec => exact LoopRes.noConfusion h

/-- Per-round correlation/count property and termination condition for the
`testing.py` loop. -/
theorem testingLoop_round_property (tools : ToolMap) :
    ∀ (script : List AIResp) (first : AIResp) (fs : FileSys)
      (out : TestingLoopOut),
    testingLoop tools first script fs = .done out →
    (∀ rt ∈ out.trace,
        rt.results.map (fun m => m.tool_call_id) =
          (rt.calls.filter (fun c => (lookupTool tools c.name).isSome)).map
            (fun c => c.id)
        ∧ rt.results.length =
            (rt.calls.filter (fun c => (lookupTool tools c.name).isSome)).length
        ∧ rt.calls ≠ [])
    ∧ out.final.tool_calls = [] := by
  intro script
  induction script with
  | nil =>
      intro first fs out h
      simp only [testingLoop] at h
      split at h
      next hemp =>
        cases h
        refine ⟨fun rt hrt => absurd hrt (by simp), ?_⟩
        exact List.isEmpty_iff.mp hemp
      next hemp => exact LoopRes.noConfusion h
  | cons next_ rest ih =>
      intro first fs out h
      simp only [testingLoop] at h
      split at h
      next hemp =>
        cases h
        refine ⟨fun rt hrt => absurd hrt (by simp), ?_⟩
        exact List.isEmpty_iff.mp hemp
      next hemp =>
        split at h
        next e hr => exact LoopRes.noConfusion h
        next rnd hr =>
          split at h
          next out2 hrec =>
            cases h
            obtain ⟨ihtrace, ihfinal⟩ := ih next_ rnd.fs out2 hrec
            refine ⟨?_, ihfinal⟩
            intro rt hrt
            rcases List.mem_cons.mp hrt with rfl | hrt
            · have hids := testingRound_ids tools first.tool_calls fs rnd hr
              refine ⟨hids, ?_, ?_⟩
              · have hlen := congrArg List.length hids
                rwa [List.length_map, List.length_map] at hlen
              · intro hnil
                have hnil2 : first.tool_calls = [] := hnil
                rw [hnil2] at hemp
                simp at hemp
            · exact ihtrace rt hrt
          next e hrec => exact LoopRes.noConfusion h
          next hrec => exact LoopRes.noConfusion h

/-- C3 as amended: in every round of the tool-calling loop — in
`coding.py`'s and in `testing.py`'s copy alike — the appended `ToolResult`
messages correspond one-to-one and in order, by correlation id, to the
`ToolCallRequests` of that round whose capability name is registered in the
tool map (unregistered names are skipped), their count equals the count of
those registered-name requests, every round is entered with a non-empty
request list, and the loop terminates exactly when a response carries zero
requests. -/
theorem claim3_amended_round_results (tools : ToolMap) :
    (∀ (script : List AIResp) (first : AIResp) (cf : List (String × String))
       (fs : FileSys) (out : CodingLoopOut),
      codingLoop tools first script cf fs = .done out →
      (∀ rt ∈ out.trace,
          rt.results.map (fun m => m.tool_call_id) =
            (rt.calls.filter (fun c => (lookupTool tools c.name).isSome)).map
              (fun c => c.id)
          ∧ rt.results.length =
              (rt.calls.filter (fun c => (lookupTool tools c.name).isSome)).length
          ∧ rt.calls ≠ [])
      ∧ out.final.tool_calls = [])
    ∧ (∀ (script : List AIResp) (first : AIResp) (fs : FileSys)
        (out : TestingLoopOut),
      testingLoop tools first script fs = .done out →
      (∀ rt ∈ out.trace,
          rt.results.map (fun m => m.tool_call_id) =
            (rt.calls.filter (fun c => (lookupTool tools c.name).isSome)).map
              (fun c => c.id)
          ∧ rt.results.length =
              (rt.calls.filter (fun c => (lookupTool tools c.name).isSome)).length
          ∧ rt.calls ≠ [])
      ∧ out.final.tool_calls = []) :=
  ⟨codingLoop_round_property tools, testingLoop_round_property tools⟩

/-- Witness for C3 (amended): a coding-loop run that writes one file and
stops, and a testing-loop run that runs the tests once and stops. -/
theorem claim3_amended_witness :
    ((∀ rt ∈ (codingOutOf (codingLoop c3Tools c3WitFirst [⟨"done", []⟩] [] c3Fs)).trace,
        rt.results.map (fun m => m.tool_call_id) =
          (rt.calls.filter (fun c => (lookupTool c3Tools c.name).isSome)).map
            (fun c => c.id)
        ∧ rt.results.length =
            (rt.calls.filter (fun c => (lookupTool c3Tools c.name).isSome)).length
        ∧ rt.calls ≠ [])
    ∧ (codingOutOf (codingLoop c3Tools c3WitFirst [⟨"done", []⟩] [] c3Fs)).final.tool_calls = [])
    ∧ ((∀ rt ∈ (testingOutOf (testingLoop c3TestTools c3TestFirst [⟨"2 passed", []⟩] c3Fs)).trace,
        rt.results.map (fun m => m.tool_call_id) =
          (rt.calls.filter (fun c => (lookupTool c3TestTools c.name).isSome)).map
            (fun c => c.id)
        ∧ rt.results.length =
            (rt.calls.filter (fun c => (lookupTool c3TestTools c.name).isSome)).length
        ∧ rt.calls ≠ [])
    ∧ (testingOutOf (testingLoop c3TestTools c3TestFirst [⟨"2 passed", []⟩] c3Fs)).final.tool_calls = []) :=
  ⟨(claim3_amended_round_results c3Tools).1 [⟨"done", []⟩] c3WitFirst [] c3Fs
      (codingOutOf (codingLoop c3Tools c3WitFirst [⟨"done", []⟩] [] c3Fs)) rfl,
   (claim3_amended_round_results c3TestTools).2 [⟨"2 passed", []⟩] c3TestFirst c3Fs
      (testingOutOf (testingLoop c3TestTools c3TestFirst [⟨"2 passed", []⟩] c3Fs)) rfl⟩

/-! ### Claims about the testing agent -/

/-- C10 counterexample: the run reads two artifacts whose contents are
`FAIL` and `ED`.  The plain concatenation of the final response text and
the tool outputs contains `FAILED`, so the claim predicts
`tests_passing = false`; but the source joins tool outputs with `"\n"`
(`testing.py` line 100), the keyword does not survive the newline, and
`tests_passing` is `true`. -/
theorem claim10_counterexample :
    (testingUpdOf (testing_agent c10Tools c10First [⟨"", []⟩] c10Fs)).tests_passing = true
    ∧ (testingOutOf (testingLoop c10Tools c10First [⟨"", []⟩] c10Fs)).outputs =
        ["FAIL", "ED"]
    ∧ (testingOutOf (testingLoop c10Tools c10First [⟨"", []⟩] c10Fs)).final.content = ""
    ∧ pyIn (pyUpper "FAILED")
        (pyUpper ((testingOutOf (testingLoop c10Tools c10First [⟨"", []⟩] c10Fs)).final.content
          ++ String.join
              (testingOutOf (testingLoop c10Tools c10First [⟨"", []⟩] c10Fs)).outputs)) =
        true := by
  refine ⟨rfl, rfl, rfl, ?_⟩
  decide

/-- C10 as amended: after every completed `testing_agent` run, the
`tests_passing` flag is true iff none of the failure keywords occurs
case-insensitively in the final response text followed by the tool outputs
of the run joined with newline separators. -/
theorem claim10_amended_pass_iff_no_keyword (tools : ToolMap) (first : AIResp)
    (script : List AIResp) (fs : FileSys) (out : TestingLoopOut)
    (h : testingLoop tools first script fs = .done out) :
    ∃ u, testing_agent tools first script fs = .done u ∧
      (u.tests_passing = true ↔
        ∀ kw ∈ FAILURE_KEYWORDS,
          pyIn (pyUpper kw)
            (pyUpper (out.final.content ++ pyJoin "\n" out.outputs)) = false) := by
  refine ⟨⟨out.messages, out.final.content,
      detect_passing (out.final.content ++ pyJoin "\n" out.outputs), "testing"⟩, ?_, ?_⟩
  · unfold testing_agent
    rw [h]
  · unfold detect_passing
    rw [List.all_eq_true]
    simp only [Bool.not_eq_true']

/-- Witness for C10 (amended) on a run with no tool calls and a clean
summary. -/
theorem claim10_amended_witness :
    ∃ u, testing_agent c10Tools ⟨"3 passed, 0 warnings", []⟩ [] c10Fs = .done u ∧
      (u.tests_passing = true ↔
        ∀ kw ∈ FAILURE_KEYWORDS,
          pyIn (pyUpper kw)
            (pyUpper ((testingOutOf (testingLoop c10Tools ⟨"3 passed, 0 warnings", []⟩ [] c10Fs)).final.content
              ++ pyJoin "\n"
                  (testingOutOf (testingLoop c10Tools ⟨"3 passed, 0 warnings", []⟩ [] c10Fs)).outputs)) =
            false) :=
  claim10_amended_pass_iff_no_keyword c10Tools ⟨"3 passed, 0 warnings", []⟩ [] c10Fs
    (testingOutOf (testingLoop c10Tools ⟨"3 passed, 0 warnings", []⟩ [] c10Fs)) rfl

/-! ### Lemmas about `relNames` -/

theorem relNames_ok (out : List String) :
    ∀ (l : List (List String)), (∀ p ∈ l, out.isPrefixOf p = true) →
    relNames out l = .ok (l.map (relName out)) := by
  intro l
  induction l with
  | nil => intro _; rfl
  | cons p rest ih =>
      intro h
      have hp := h p (List.mem_cons_self p rest)
      simp only [relNames]
      rw [if_pos hp, ih (fun q hq => h q (List.mem_cons_of_mem p hq))]
      rfl

theorem relNames_error (out : List String) :
    ∀ (l : List (List String)), (∃ p ∈ l, out.isPrefixOf p = false) →
    ∃ e, relNames out l = .error e := by
  intro l
  induction l with
  | nil =>
      rintro ⟨p, hp, _⟩
      cases hp
  | cons p rest ih =>
      rintro ⟨q, hq, hpref⟩
      rcases List.mem_cons.mp hq with rfl | hq
      · have hstep : relNames out (q :: rest) =
            .error ("'" ++ renderPath q ++ "' is not in the subtree of '"
              ++ renderPath out ++ "'") := by
          simp only [relNames]
          rw [if_neg (by rw [hpref]; simp)]
        exact ⟨_, hstep⟩
      · cases hp : out.isPrefixOf p with
        | false =>
            have hstep : relNames out (p :: rest) =
                .error ("'" ++ renderPath p ++ "' is not in the subtree of '"
                  ++ renderPath out ++ "'") := by
              simp only [relNames]
              rw [if_neg (by rw [hp]; simp)]
            exact ⟨_, hstep⟩
        | true =>
            obtain ⟨e, he⟩ := ih ⟨q, hq, hpref⟩
            refine ⟨e, ?_⟩
            simp only [relNames]
            rw [if_pos hp, he]

/-! ### Claims about the file tools -/

/-- C8 counterexample: for an absent directory `list_files` returns the
message string `Directory not found: .` — not an empty sequence — and for
an existing empty directory it returns the sentinel `(empty)`, also not the
empty sequence of names. -/
theorem claim8_counterexample :
    list_files ["app"] "output" "." ⟨[], []⟩ =
      .ok ("Directory not found: .", ⟨[], []⟩)
    ∧ ("Directory not found: ." : String) ≠ ""
    ∧ list_files ["app"] "output" "." ⟨[["app", "output"]], []⟩ =
        .ok ("(empty)", ⟨[["app", "output"]], []⟩)
    ∧ ("(empty)" : String) ≠ "" := by
  decide

/-- C8 as amended: for every directory argument that passes
`_resolve_path`, `list_files` returns the message `Directory not found:
<dir>` — a plain string, not a raised error — when the directory is absent;
when it exists and every file below it lies below the output root, it
returns the newline-join of a list of names that is sorted by code-point
order and contains exactly the relative names of the files below the
directory, with the sentinel `(empty)` replacing an empty join; when it
exists but some file below it escapes the output root (reachable only
through the `startswith` prefix bug of `_resolve_path`), the
`relative_to` computation raises `ValueError`. -/
theorem claim8_amended_list_files (cwd : List String) (od d : String)
    (fs : FileSys) (base : List String)
    (hres : resolve_path cwd od d = .ok base) :
    (fsExists fs base = false →
      list_files cwd od d fs = .ok ("Directory not found: " ++ d, fs))
    ∧ (fsExists fs base = true →
        (∀ p ∈ filesUnder fs base, (absResolve cwd od).isPrefixOf p = true) →
        ∃ names : List String,
          list_files cwd od d fs =
            .ok ((if names.isEmpty then "(empty)" else pyJoin "\n" names), fs)
          ∧ names.Pairwise (fun a b => strLeB a b = true)
          ∧ (∀ n, n ∈ names ↔
              ∃ p ∈ filesUnder fs base, n = relName (absResolve cwd od) p))
    ∧ (fsExists fs base = true →
        (∃ p ∈ filesUnder fs base, (absResolve cwd od).isPrefixOf p = false) →
        ∃ e, list_files cwd od d fs = .error e) := by
  have hkey : list_files cwd od d fs =
      (if fsExists fs base then
        (match relNames (absResolve cwd od) (filesUnder fs base) with
         | .error e => .error e
         | .ok ns =>
             .ok ((if (pySorted ns).isEmpty then "(empty)" else pyJoin "\n" (pySorted ns)),
                  fs))
      else .ok ("Directory not found: " ++ d, fs)) := by
    unfold list_files
    rw [hres]
  rw [hkey]
  refine ⟨?_, ?_, ?_⟩
  · intro hne
    rw [hne]
    simp
  · intro hex hall
    rw [if_pos hex, relNames_ok (absResolve cwd od) (filesUnder fs base) hall]
    refine ⟨pySorted ((filesUnder fs base).map (relName (absResolve cwd od))),
      rfl, pairwise_pySorted _, ?_⟩
    intro n
    rw [mem_pySorted, List.mem_map]
    constructor
    · rintro ⟨p, hp, rfl⟩
      exact ⟨p, hp, rfl⟩
    · rintro ⟨p, hp, rfl⟩
      exact ⟨p, hp, rfl⟩
  · intro hex hesc
    obtain ⟨e, he⟩ := relNames_error (absResolve cwd od) (filesUnder fs base) hesc
    refine ⟨e, ?_⟩
    rw [if_pos hex, he]

/-- Witness for C8 (amended): the ok case on a one-file output directory,
and the raising case on the escaped sibling directory `../output2` admitted
by the prefix bug. -/
theorem claim8_amended_witness :
    (∃ names : List String,
      list_files ["app"] "output" "."
          ⟨[["app", "output"]], [(["app", "output", "x.py"], "print(1)")]⟩ =
        .ok ((if names.isEmpty then "(empty)" else pyJoin "\n" names),
             ⟨[["app", "output"]], [(["app", "output", "x.py"], "print(1)")]⟩)
      ∧ names.Pairwise (fun a b => strLeB a b = true)
      ∧ (∀ n, n ∈ names ↔
          ∃ p ∈ filesUnder ⟨[["app", "output"]], [(["app", "output", "x.py"], "print(1)")]⟩
              ["app", "output"],
            n = relName (absResolve ["app"] "output") p))
    ∧ (∃ e, list_files ["app"] "output" "../output2"
          ⟨[["app", "output2"]], [(["app", "output2", "f.txt"], "x")]⟩ = .error e) :=
  ⟨(claim8_amended_list_files ["app"] "output" "."
      ⟨[["app", "output"]], [(["app", "output", "x.py"], "print(1)")]⟩
      ["app", "output"] rfl).2.1 (by decide) (by decide),
   (claim8_amended_list_files ["app"] "output" "../output2"
      ⟨[["app", "output2"]], [(["app", "output2", "f.txt"], "x")]⟩
      ["app", "output2"] rfl).2.2 (by decide)
      ⟨["app", "output2", "f.txt"], by decide, by decide⟩⟩

/-- C9 (code bug): `_resolve_path` checks containment with
`str(resolved).startswith(str(base))`, a string-prefix test.  The filename
`../output2/secret.txt` resolves to `/app/output2/secret.txt`, whose string
rendering starts with `/app/output` even though the path lies outside the
output directory `/app/output` (the component list is not an ancestor), so
no `ValueError` is raised and `write_file` happily writes outside the
output directory; a blunt escape such as `../../etc/passwd` is caught. -/
theorem claim9_resolve_path_escape :
    resolve_path ["app"] "output" "../output2/secret.txt" =
      .ok ["app", "output2", "secret.txt"]
    ∧ absResolve ["app"] "output" = ["app", "output"]
    ∧ ["app", "output"].isPrefixOf ["app", "output2", "secret.txt"] = false
    ∧ write_file ["app"] "output" "../output2/secret.txt" "stolen"
        ⟨[["app", "output"]], []⟩ =
        .ok ("Written 6 bytes to /app/output2/secret.txt",
             ⟨[["app", "output"], ["app", "output2"]],
              [(["app", "output2", "secret.txt"], "stolen")]⟩)
    ∧ resolve_path ["app"] "output" "../../etc/passwd" =
        .error "Path traversal detected: ../../etc/passwd" := by
  decide
